import Mathlib

/-!
# Verification of the vctool password-based certificate encryption envelope

Shallow embedding of `certificate_encrypt` / `certificate_decrypt`
(src/certificate/certificate_encrypt.c, certificate_decrypt.c) and
`crypt_cipher_mac_init_from_password` (crypt/crypt_cipher_mac_init_from_password.c).

Bytes are modelled as natural numbers.  The external vccrypt collaborators
(stream cipher, MAC, KDF, PRNG, allocator) are modelled abstractly: the crypto
suite is a record of pure functions, fallible collaborator calls are driven by
an environment record carrying the status each call returns (0 is
VCCRYPT_STATUS_SUCCESS; a call fails exactly when its status is nonzero, which
is what the source's `if (VCCRYPT_STATUS_SUCCESS != retval)` guards test).
Buffer writes at successive offsets into the exactly-sized envelope allocation
are modelled as list concatenation; an incremental MAC (a sequence of
`vccrypt_mac_digest` calls followed by `vccrypt_mac_finalize`) is modelled as a
single tag function applied to the concatenation of all digested byte runs.
-/

/-- ASCII bytes of ENCRYPTED_CERT_MAGIC_STRING "ENC" (include/vctool/certificate.h). -/
def ENCRYPTED_CERT_MAGIC_STRING : List Nat := [69, 78, 67]

/-- ENCRYPTED_CERT_MAGIC_SIZE (include/vctool/certificate.h). -/
def ENCRYPTED_CERT_MAGIC_SIZE : Nat := 3

/-- Big-endian serialization of a 32-bit unsigned integer: the bytes written by
`net_rounds = htonl(rounds); memcpy(benc, &net_rounds, 4)`. -/
def htonl_bytes (r : Nat) : List Nat :=
  [r / 2 ^ 24 % 256, r / 2 ^ 16 % 256, r / 2 ^ 8 % 256, r % 256]

/-- Big-endian deserialization of 4 bytes: `memcpy(&net_rounds, bcert, 4);
rounds = ntohl(net_rounds)`.  Any non-4-byte input maps to 0 (never hit: the
decryptor reads exactly 4 bytes). -/
def ntohl_bytes : List Nat → Nat
  | [a, b, c, d] => ((a * 256 + b) * 256 + c) * 256 + d
  | _ => 0

/-- VCTOOL_STATUS_SUCCESS (include/vctool/status_codes.h). -/
def VCTOOL_STATUS_SUCCESS : Int := 0

/-- VCTOOL_STATUS_ERROR_MACRO(component, reason) =
`0x8000000 | ((component & 0xFF) << 16) | (reason & 0xFFFF)`
(include/vctool/status_codes.h); renamed to avoid a clash with Lean keywords. -/
def VCTOOL_STATUS_ERROR_CODE (component reason : Nat) : Int :=
  ((0x8000000 ||| ((component &&& 0xFF) <<< 16) ||| (reason &&& 0xFFFF) : Nat) : Int)

/-- Modelled from the spec: the enumerator VCTOOL_COMPONENT_CERTIFICATE is
referenced by include/vctool/status_codes/certificate.h but its numeric value
is absent from the provided include/vctool/components.h (which ends at
VCTOOL_COMPONENT_READPASSWORD = 0x03); it is the next enumerator, 0x04.  No
claim depends on the exact value; only the two certificate error codes being
distinct from each other and from success matters. -/
def VCTOOL_COMPONENT_CERTIFICATE : Nat := 0x04

/-- VCTOOL_ERROR_CERTIFICATE_NOT_MINIMUM_SIZE
(include/vctool/status_codes/certificate.h). -/
def VCTOOL_ERROR_CERTIFICATE_NOT_MINIMUM_SIZE : Int :=
  VCTOOL_STATUS_ERROR_CODE VCTOOL_COMPONENT_CERTIFICATE 0x0001

/-- VCTOOL_ERROR_CERTIFICATE_VERIFICATION
(include/vctool/status_codes/certificate.h). -/
def VCTOOL_ERROR_CERTIFICATE_VERIFICATION : Int :=
  VCTOOL_STATUS_ERROR_CODE VCTOOL_COMPONENT_CERTIFICATE 0x0002

/-- The cryptographic suite consumed by the envelope code
(`opts->suite`), modelled abstractly per the collaborator interfaces of the
spec: declared sizes plus pure functions for the KDF, the MAC tag, and the
stream cipher.  `startEnc key iv` is the self-describing framing the cipher
writes during `vccrypt_stream_start_encryption`; `startDec key framing`
recovers the cipher state (the iv) from those framing bytes during
`vccrypt_stream_start_decryption`. -/
structure Suite where
  key_size : Nat
  iv_size : Nat
  mac_size : Nat
  kdf : List Nat → List Nat → Nat → List Nat
  macTag : List Nat → List Nat → List Nat
  startEnc : List Nat → List Nat → List Nat
  enc : List Nat → List Nat → List Nat → List Nat
  startDec : List Nat → List Nat → List Nat
  dec : List Nat → List Nat → List Nat → List Nat

/-- Interface contract of the external suite (spec section 6): framing has the
declared iv size, the cipher is length-preserving and invertible, tags have the
declared mac size. -/
structure Suite.WellFormed (s : Suite) : Prop where
  startEnc_len : ∀ k iv, iv.length = s.iv_size → (s.startEnc k iv).length = s.iv_size
  enc_len : ∀ k iv p, (s.enc k iv p).length = p.length
  dec_len : ∀ k iv c, (s.dec k iv c).length = c.length
  mac_len : ∀ k m, (s.macTag k m).length = s.mac_size
  startDec_startEnc : ∀ k iv, iv.length = s.iv_size → s.startDec k (s.startEnc k iv) = iv
  dec_enc : ∀ k iv p, iv.length = s.iv_size → s.dec k iv (s.enc k iv p) = p

/-- Cryptographic primitive invocations, recorded as a trace so that claims
about which primitives run on which paths can be stated. -/
inductive Ev where
  | kdf
  | macInit
  | cipherInit
  | macDigest
  | macFinalize
  | startDecryption
  | streamDecrypt
deriving DecidableEq

/-- Resources disposed by crypt_cipher_mac_init_from_password on its exit
paths. -/
inductive Res where
  | derivedKey
  | keyDerivation
  | macCtx
deriving DecidableEq

/-- Statuses returned by the collaborator calls made by
crypt_cipher_mac_init_from_password, in source order: the derived-key buffer
init, the key-derivation instance init, the key derivation itself, the MAC
construction, and the stream-cipher construction.  A call fails exactly when
its status is nonzero. -/
structure CMEnv where
  derived_key_buf_st : Int
  kd_init_st : Int
  derive_st : Int
  mac_init_st : Int
  stream_init_st : Int

/-- Result of crypt_cipher_mac_init_from_password: the returned status, the
pair of constructed contexts (cipher key, mac key; both keyed with the derived
key) handed to the caller on success, the resources disposed before returning
(in dispose order), and the crypto primitives invoked. -/
structure CMResult where
  retval : Int
  ctxs : Option (List Nat × List Nat)
  disposed : List Res
  trace : List Ev

/-- Shallow embedding of crypt_cipher_mac_init_from_password
(crypt/crypt_cipher_mac_init_from_password.c, lines 29-103): init the
derived-key buffer, init the key-derivation instance, derive the key, build
the MAC context, build the stream-cipher context; each failure takes the
corresponding goto-cleanup chain, which on the stream-cipher failure path
disposes the already-built MAC context first. -/
def crypt_cipher_mac_init_from_password
    (s : Suite) (env : CMEnv) (password salt : List Nat) (rounds : Nat) :
    CMResult :=
  if env.derived_key_buf_st ≠ 0 then
    ⟨env.derived_key_buf_st, none, [], []⟩
  else if env.kd_init_st ≠ 0 then
    ⟨env.kd_init_st, none, [Res.derivedKey], []⟩
  else if env.derive_st ≠ 0 then
    ⟨env.derive_st, none, [Res.keyDerivation, Res.derivedKey], [Ev.kdf]⟩
  else if env.mac_init_st ≠ 0 then
    ⟨env.mac_init_st, none, [Res.keyDerivation, Res.derivedKey],
      [Ev.kdf, Ev.macInit]⟩
  else if env.stream_init_st ≠ 0 then
    ⟨env.stream_init_st, none, [Res.macCtx, Res.keyDerivation, Res.derivedKey],
      [Ev.kdf, Ev.macInit, Ev.cipherInit]⟩
  else
    let key := s.kdf password salt rounds
    ⟨VCTOOL_STATUS_SUCCESS, some (key, key), [Res.keyDerivation, Res.derivedKey],
      [Ev.kdf, Ev.macInit, Ev.cipherInit]⟩

/-- Statuses and values of the collaborator calls made by certificate_encrypt,
in source order.  `prng_salt` / `prng_iv` are the random bytes the PRNG writes
into the salt and iv buffers; `malloc_ok` is whether the malloc of the output
vccrypt_buffer_t wrapper succeeds. -/
structure EncEnv where
  salt_buf_st : Int
  iv_buf_st : Int
  mac_buf_st : Int
  prng_init_st : Int
  prng_salt_st : Int
  prng_salt : List Nat
  prng_iv_st : Int
  prng_iv : List Nat
  cmenv : CMEnv
  malloc_ok : Bool
  enc_buf_st : Int
  mac_digest_magic_st : Int
  mac_digest_rounds_st : Int
  mac_digest_salt_st : Int
  start_enc_st : Int
  enc_st : Int
  mac_digest_data_st : Int
  mac_finalize_st : Int

/-- Result of certificate_encrypt: the returned status and the envelope buffer
handed to the caller (`none` when no valid buffer is transferred). -/
structure EncResult where
  retval : Int
  encrypted_cert : Option (List Nat)

/-- The envelope bytes produced by a successful certificate_encrypt: magic,
big-endian rounds, salt, cipher framing, ciphertext, then the MAC tag over
everything that precedes it (the digests of the magic, the rounds bytes, the
salt, and the stream output, in that order). -/
def encryptedCertBytes (s : Suite) (cert password salt iv : List Nat) (rounds : Nat) :
    List Nat :=
  let key := s.kdf password salt rounds
  let framing := s.startEnc key iv
  let ct := s.enc key iv cert
  let body := ENCRYPTED_CERT_MAGIC_STRING ++ htonl_bytes rounds ++ salt ++ framing ++ ct
  body ++ s.macTag key body

/-- Shallow embedding of certificate_encrypt
(certificate/certificate_encrypt.c, lines 31-246).  The guard order mirrors
the source: salt buffer init, iv buffer init, mac buffer init, prng init, prng
read of the salt, prng read of the iv, cipher/mac init from the password, the
malloc of the output wrapper, the envelope buffer init, then the digest /
stream / finalize calls.  On the malloc-failure path the source jumps to
cleanup without assigning `retval`, so the status returned is the (successful)
status of the preceding cipher/mac init; the embedding reproduces this. -/
def certificate_encrypt
    (s : Suite) (env : EncEnv) (cert password : List Nat) (rounds : Nat) :
    EncResult :=
  if env.salt_buf_st ≠ 0 then ⟨env.salt_buf_st, none⟩
  else if env.iv_buf_st ≠ 0 then ⟨env.iv_buf_st, none⟩
  else if env.mac_buf_st ≠ 0 then ⟨env.mac_buf_st, none⟩
  else if env.prng_init_st ≠ 0 then ⟨env.prng_init_st, none⟩
  else if env.prng_salt_st ≠ 0 then ⟨env.prng_salt_st, none⟩
  else if env.prng_iv_st ≠ 0 then ⟨env.prng_iv_st, none⟩
  else
    let cm := crypt_cipher_mac_init_from_password s env.cmenv password env.prng_salt rounds
    if cm.retval ≠ 0 then ⟨cm.retval, none⟩
    else if ¬ env.malloc_ok then ⟨cm.retval, none⟩
    else if env.enc_buf_st ≠ 0 then ⟨env.enc_buf_st, none⟩
    else if env.mac_digest_magic_st ≠ 0 then ⟨env.mac_digest_magic_st, none⟩
    else if env.mac_digest_rounds_st ≠ 0 then ⟨env.mac_digest_rounds_st, none⟩
    else if env.mac_digest_salt_st ≠ 0 then ⟨env.mac_digest_salt_st, none⟩
    else if env.start_enc_st ≠ 0 then ⟨env.start_enc_st, none⟩
    else if env.enc_st ≠ 0 then ⟨env.enc_st, none⟩
    else if env.mac_digest_data_st ≠ 0 then ⟨env.mac_digest_data_st, none⟩
    else if env.mac_finalize_st ≠ 0 then ⟨env.mac_finalize_st, none⟩
    else ⟨VCTOOL_STATUS_SUCCESS,
      some (encryptedCertBytes s cert password env.prng_salt env.prng_iv rounds)⟩

/-- min_encrypted_cert_size as computed by certificate_decrypt: magic + rounds
field + salt (= key size) + iv + mac tag. -/
def min_encrypted_cert_size (s : Suite) : Nat :=
  ENCRYPTED_CERT_MAGIC_SIZE + 4 + s.key_size + s.iv_size + s.mac_size

/-- Statuses of the collaborator calls made by certificate_decrypt, in source
order: the mac buffer init, the salt buffer init, the cipher/mac init, the
malloc of the output wrapper, the output buffer init, the one-pass mac digest,
the mac finalize, the stream start-decryption, and the stream decrypt. -/
structure DecEnv where
  mac_buf_st : Int
  salt_buf_st : Int
  cmenv : CMEnv
  malloc_ok : Bool
  cert_buf_st : Int
  mac_digest_st : Int
  mac_finalize_st : Int
  start_dec_st : Int
  dec_st : Int

/-- Result of certificate_decrypt: the returned status, the plaintext buffer
handed to the caller (`none` when no valid buffer is transferred), the final
contents of the caller's envelope buffer, and the trace of crypto primitives
invoked.  The source takes the envelope as `const vccrypt_buffer_t*` and never
stores through it — all writes go to the salt buffer, the mac buffer and the
freshly allocated output buffer — so the final envelope contents equal the
input on every path. -/
structure DecResult where
  retval : Int
  cert : Option (List Nat)
  envFinal : List Nat
  trace : List Ev

/-- The MAC that certificate_decrypt computes over the envelope: the key is
derived from the password with the embedded salt and rounds (lines 342-354),
and the digest covers the entire envelope except the trailing tag (lines
379-393). -/
def computedTag (s : Suite) (enc_cert password : List Nat) : List Nat :=
  let rounds := ntohl_bytes ((enc_cert.drop 3).take 4)
  let salt := (enc_cert.drop 7).take s.key_size
  s.macTag (s.kdf password salt rounds)
    (enc_cert.take (enc_cert.length - s.mac_size))

/-- The trailing tag bytes of the envelope, as located by certificate_decrypt
(lines 396-397). -/
def storedTag (s : Suite) (enc_cert : List Nat) : List Nat :=
  enc_cert.drop (enc_cert.length - s.mac_size)

/-- Shallow embedding of certificate_decrypt
(certificate/certificate_decrypt.c, lines 277-449).  Mirrors the source order:
mac buffer init, salt buffer init, minimum-size check, constant-time magic
comparison, big-endian rounds read, salt copy, cipher/mac init from password,
malloc of the output wrapper, output buffer init, one-pass MAC over the
envelope minus the trailing tag, MAC finalize, constant-time tag comparison,
stream start-decryption on the framing bytes after the salt, and stream
decrypt of the remaining bytes (excluding the tag) into the output buffer.  As
in the encryptor, the malloc-failure path returns without assigning `retval`,
i.e. with the preceding successful status. -/
def certificate_decrypt
    (s : Suite) (env : DecEnv) (enc_cert password : List Nat) : DecResult :=
  if env.mac_buf_st ≠ 0 then ⟨env.mac_buf_st, none, enc_cert, []⟩
  else if env.salt_buf_st ≠ 0 then ⟨env.salt_buf_st, none, enc_cert, []⟩
  else if enc_cert.length < min_encrypted_cert_size s then
    ⟨VCTOOL_ERROR_CERTIFICATE_NOT_MINIMUM_SIZE, none, enc_cert, []⟩
  else if enc_cert.take ENCRYPTED_CERT_MAGIC_SIZE ≠ ENCRYPTED_CERT_MAGIC_STRING then
    ⟨VCTOOL_ERROR_CERTIFICATE_VERIFICATION, none, enc_cert, []⟩
  else
    let rounds := ntohl_bytes ((enc_cert.drop 3).take 4)
    let salt := (enc_cert.drop 7).take s.key_size
    let cm := crypt_cipher_mac_init_from_password s env.cmenv password salt rounds
    if cm.retval ≠ 0 then ⟨cm.retval, none, enc_cert, cm.trace⟩
    else if ¬ env.malloc_ok then ⟨cm.retval, none, enc_cert, cm.trace⟩
    else if env.cert_buf_st ≠ 0 then ⟨env.cert_buf_st, none, enc_cert, cm.trace⟩
    else if env.mac_digest_st ≠ 0 then
      ⟨env.mac_digest_st, none, enc_cert, cm.trace ++ [Ev.macDigest]⟩
    else if env.mac_finalize_st ≠ 0 then
      ⟨env.mac_finalize_st, none, enc_cert, cm.trace ++ [Ev.macDigest, Ev.macFinalize]⟩
    else if computedTag s enc_cert password ≠ storedTag s enc_cert then
      ⟨VCTOOL_ERROR_CERTIFICATE_VERIFICATION, none, enc_cert,
        cm.trace ++ [Ev.macDigest, Ev.macFinalize]⟩
    else if env.start_dec_st ≠ 0 then
      ⟨env.start_dec_st, none, enc_cert,
        cm.trace ++ [Ev.macDigest, Ev.macFinalize, Ev.startDecryption]⟩
    else
      let key := s.kdf password salt rounds
      let after_salt := enc_cert.drop (7 + s.key_size)
      let iv := s.startDec key (after_salt.take s.iv_size)
      let cert_size := enc_cert.length - min_encrypted_cert_size s
      let pt := s.dec key iv ((after_salt.drop s.iv_size).take cert_size)
      if env.dec_st ≠ 0 then
        ⟨env.dec_st, none, enc_cert,
          cm.trace ++ [Ev.macDigest, Ev.macFinalize, Ev.startDecryption, Ev.streamDecrypt]⟩
      else
        ⟨VCTOOL_STATUS_SUCCESS, some pt, enc_cert,
          cm.trace ++ [Ev.macDigest, Ev.macFinalize, Ev.startDecryption, Ev.streamDecrypt]⟩

/-- The all-collaborators-succeed environment for the cipher/mac init. -/
def allOkCMEnv : CMEnv := ⟨0, 0, 0, 0, 0⟩

/-- The all-collaborators-succeed environment for encryption, with the given
PRNG outputs for the salt and iv buffers. -/
def allOkEncEnv (salt iv : List Nat) : EncEnv :=
  ⟨0, 0, 0, 0, 0, salt, 0, iv, allOkCMEnv, true, 0, 0, 0, 0, 0, 0, 0, 0⟩

/-- The all-collaborators-succeed environment for decryption. -/
def allOkDecEnv : DecEnv := ⟨0, 0, allOkCMEnv, true, 0, 0, 0, 0, 0⟩

/-- Encryption environment in which every collaborator call succeeds except
the malloc of the output vccrypt_buffer_t wrapper. -/
def mallocFailEncEnv (salt iv : List Nat) : EncEnv :=
  ⟨0, 0, 0, 0, 0, salt, 0, iv, allOkCMEnv, false, 0, 0, 0, 0, 0, 0, 0, 0⟩

/-- Decryption environment in which every collaborator call succeeds except
the malloc of the output vccrypt_buffer_t wrapper. -/
def mallocFailDecEnv : DecEnv := ⟨0, 0, allOkCMEnv, false, 0, 0, 0, 0, 0⟩

/-- A concrete well-formed suite for witnesses: one-byte key, iv and tag, the
identity cipher, a constant tag. -/
def trivSuite : Suite where
  key_size := 1
  iv_size := 1
  mac_size := 1
  kdf := fun _ _ _ => [0]
  macTag := fun _ _ => [0]
  startEnc := fun _ iv => iv
  enc := fun _ _ p => p
  startDec := fun _ f => f
  dec := fun _ _ c => c

theorem trivSuite_wf : trivSuite.WellFormed := by
  constructor <;> intro _ h <;> simp [trivSuite] at *

theorem ntohl_htonl (r : Nat) (h : r < 2 ^ 32) : ntohl_bytes (htonl_bytes r) = r := by
  simp only [htonl_bytes, ntohl_bytes]
  omega

theorem htonl_bytes_length (r : Nat) : (htonl_bytes r).length = 4 := rfl

theorem encryptedCertBytes_decomp (s : Suite) (cert password salt iv : List Nat)
    (rounds : Nat) :
    encryptedCertBytes s cert password salt iv rounds =
      ENCRYPTED_CERT_MAGIC_STRING ++ htonl_bytes rounds ++ salt
        ++ s.startEnc (s.kdf password salt rounds) iv
        ++ s.enc (s.kdf password salt rounds) iv cert
        ++ s.macTag (s.kdf password salt rounds)
          (ENCRYPTED_CERT_MAGIC_STRING ++ htonl_bytes rounds ++ salt
            ++ s.startEnc (s.kdf password salt rounds) iv
            ++ s.enc (s.kdf password salt rounds) iv cert) := by
  simp [encryptedCertBytes, List.append_assoc]

theorem certificate_decrypt_canonical (s : Suite) (hWF : s.WellFormed)
    (cert password salt iv : List Nat) (rounds : Nat)
    (hs : salt.length = s.key_size) (hiv : iv.length = s.iv_size)
    (hr : rounds < 2 ^ 32) :
    certificate_decrypt s allOkDecEnv
        (encryptedCertBytes s cert password salt iv rounds) password =
      ⟨VCTOOL_STATUS_SUCCESS, some cert,
        encryptedCertBytes s cert password salt iv rounds,
        [Ev.kdf, Ev.macInit, Ev.cipherInit, Ev.macDigest, Ev.macFinalize,
         Ev.startDecryption, Ev.streamDecrypt]⟩ := by
  have hK : s.kdf password salt rounds = s.kdf password salt rounds := rfl
  set K := s.kdf password salt rounds with hKdef
  set F := s.startEnc K iv with hFdef
  set C := s.enc K iv cert with hCdef
  set B := ENCRYPTED_CERT_MAGIC_STRING ++ htonl_bytes rounds ++ salt ++ F ++ C with hBdef
  set T := s.macTag K B with hTdef
  have hE : encryptedCertBytes s cert password salt iv rounds = B ++ T := rfl
  have hF : F.length = s.iv_size := hWF.startEnc_len K iv hiv
  have hC : C.length = cert.length := hWF.enc_len K iv cert
  have hT : T.length = s.mac_size := hWF.mac_len K B
  have hB : B.length = 7 + s.key_size + s.iv_size + cert.length := by
    simp only [hBdef, List.length_append, htonl_bytes, ENCRYPTED_CERT_MAGIC_STRING,
      List.length_cons, List.length_nil]
    omega
  -- the fully right-associated form of the envelope, used for parsing
  have hassoc : B ++ T
      = ENCRYPTED_CERT_MAGIC_STRING ++ (htonl_bytes rounds ++ (salt ++ (F ++ (C ++ T)))) := by
    simp [hBdef, List.append_assoc]
  have htake3 : (B ++ T).take 3 = ENCRYPTED_CERT_MAGIC_STRING := by
    rw [hassoc]; exact List.take_left' rfl
  have hdrop3 : (B ++ T).drop 3 = htonl_bytes rounds ++ (salt ++ (F ++ (C ++ T))) := by
    rw [hassoc]; exact List.drop_left' rfl
  have hrounds : ntohl_bytes (((B ++ T).drop 3).take 4) = rounds := by
    rw [hdrop3, List.take_left' (htonl_bytes_length rounds), ntohl_htonl rounds hr]
  have hassoc7 : B ++ T
      = (ENCRYPTED_CERT_MAGIC_STRING ++ htonl_bytes rounds) ++ (salt ++ (F ++ (C ++ T))) := by
    simp [hBdef, List.append_assoc]
  have hdrop7 : (B ++ T).drop 7 = salt ++ (F ++ (C ++ T)) := by
    rw [hassoc7]; exact List.drop_left' rfl
  have hsalt : ((B ++ T).drop 7).take s.key_size = salt := by
    rw [hdrop7]; exact List.take_left' hs
  have hlenE : (B ++ T).length = B.length + s.mac_size := by simp [hT]
  have hsub : (B ++ T).length - s.mac_size = B.length := by omega
  have hbody : (B ++ T).take ((B ++ T).length - s.mac_size) = B := by
    rw [hsub]; exact List.take_left' rfl
  have hstored : storedTag s (B ++ T) = T := by
    rw [storedTag, hsub]; exact List.drop_left' rfl
  have hcomputed : computedTag s (B ++ T) password = T := by
    rw [computedTag]
    simp only [hrounds, hsalt, hbody]
  have hmin : ¬ ((B ++ T).length < min_encrypted_cert_size s) := by
    simp only [min_encrypted_cert_size, ENCRYPTED_CERT_MAGIC_SIZE]
    omega
  have hassocks : B ++ T
      = (ENCRYPTED_CERT_MAGIC_STRING ++ htonl_bytes rounds ++ salt) ++ (F ++ (C ++ T)) := by
    simp [hBdef, List.append_assoc]
  have hks : (ENCRYPTED_CERT_MAGIC_STRING ++ htonl_bytes rounds ++ salt).length
      = 7 + s.key_size := by
    simp only [List.length_append, ENCRYPTED_CERT_MAGIC_STRING, htonl_bytes,
      List.length_cons, List.length_nil, hs]
  have hafter : (B ++ T).drop (7 + s.key_size) = F ++ (C ++ T) := by
    rw [hassocks]; exact List.drop_left' hks
  have hframing : ((B ++ T).drop (7 + s.key_size)).take s.iv_size = F := by
    rw [hafter]; exact List.take_left' hF
  have hcs : (B ++ T).length - min_encrypted_cert_size s = cert.length := by
    simp only [min_encrypted_cert_size, ENCRYPTED_CERT_MAGIC_SIZE]
    omega
  have hctbytes : (((B ++ T).drop (7 + s.key_size)).drop s.iv_size).take
      ((B ++ T).length - min_encrypted_cert_size s) = C := by
    rw [hafter, List.drop_left' hF, hcs]; exact List.take_left' hC
  have hivrec : s.startDec K (((B ++ T).drop (7 + s.key_size)).take s.iv_size) = iv := by
    rw [hframing, hFdef]; exact hWF.startDec_startEnc K iv hiv
  have hpt : s.dec K (s.startDec K (((B ++ T).drop (7 + s.key_size)).take s.iv_size))
      ((((B ++ T).drop (7 + s.key_size)).drop s.iv_size).take
        ((B ++ T).length - min_encrypted_cert_size s)) = cert := by
    rw [hivrec, hctbytes, hCdef]; exact hWF.dec_enc K iv cert hiv
  rw [hE]
  simp only [certificate_decrypt, allOkDecEnv, allOkCMEnv,
    crypt_cipher_mac_init_from_password, ENCRYPTED_CERT_MAGIC_SIZE]
  simp only [hmin, htake3, hrounds, hsalt, hcomputed, hstored, ← hKdef, hpt,
    ne_eq, not_true_eq_false, not_false_eq_true, ite_false, ite_true,
    if_neg, if_pos, Bool.not_true, reduceCtorEq]
  simp [VCTOOL_STATUS_SUCCESS]

theorem certificate_encrypt_success_inv
    (s : Suite) (env : EncEnv) (cert password : List Nat) (rounds : Nat)
    (out : List Nat)
    (h : certificate_encrypt s env cert password rounds =
      ⟨VCTOOL_STATUS_SUCCESS, some out⟩) :
    out = encryptedCertBytes s cert password env.prng_salt env.prng_iv rounds := by
  unfold certificate_encrypt at h
  by_cases hc0 : env.salt_buf_st ≠ 0
  · rw [if_pos hc0] at h
    exact Option.noConfusion (congrArg EncResult.encrypted_cert h)
  rw [if_neg hc0] at h
  by_cases hc1 : env.iv_buf_st ≠ 0
  · rw [if_pos hc1] at h
    exact Option.noConfusion (congrArg EncResult.encrypted_cert h)
  rw [if_neg hc1] at h
  by_cases hc2 : env.mac_buf_st ≠ 0
  · rw [if_pos hc2] at h
    exact Option.noConfusion (congrArg EncResult.encrypted_cert h)
  rw [if_neg hc2] at h
  by_cases hc3 : env.prng_init_st ≠ 0
  · rw [if_pos hc3] at h
    exact Option.noConfusion (congrArg EncResult.encrypted_cert h)
  rw [if_neg hc3] at h
  by_cases hc4 : env.prng_salt_st ≠ 0
  · rw [if_pos hc4] at h
    exact Option.noConfusion (congrArg EncResult.encrypted_cert h)
  rw [if_neg hc4] at h
  by_cases hc5 : env.prng_iv_st ≠ 0
  · rw [if_pos hc5] at h
    exact Option.noConfusion (congrArg EncResult.encrypted_cert h)
  rw [if_neg hc5] at h
  by_cases hc6 : (crypt_cipher_mac_init_from_password s env.cmenv password env.prng_salt rounds).retval ≠ 0
  · rw [if_pos hc6] at h
    exact Option.noConfusion (congrArg EncResult.encrypted_cert h)
  rw [if_neg hc6] at h
  by_cases hc7 : ¬ env.malloc_ok = true
  · rw [if_pos hc7] at h
    exact Option.noConfusion (congrArg EncResult.encrypted_cert h)
  rw [if_neg hc7] at h
  by_cases hc8 : env.enc_buf_st ≠ 0
  · rw [if_pos hc8] at h
    exact Option.noConfusion (congrArg EncResult.encrypted_cert h)
  rw [if_neg hc8] at h
  by_cases hc9 : env.mac_digest_magic_st ≠ 0
  · rw [if_pos hc9] at h
    exact Option.noConfusion (congrArg EncResult.encrypted_cert h)
  rw [if_neg hc9] at h
  by_cases hc10 : env.mac_digest_rounds_st ≠ 0
  · rw [if_pos hc10] at h
    exact Option.noConfusion (congrArg EncResult.encrypted_cert h)
  rw [if_neg hc10] at h
  by_cases hc11 : env.mac_digest_salt_st ≠ 0
  · rw [if_pos hc11] at h
    exact Option.noConfusion (congrArg EncResult.encrypted_cert h)
  rw [if_neg hc11] at h
  by_cases hc12 : env.start_enc_st ≠ 0
  · rw [if_pos hc12] at h
    exact Option.noConfusion (congrArg EncResult.encrypted_cert h)
  rw [if_neg hc12] at h
  by_cases hc13 : env.enc_st ≠ 0
  · rw [if_pos hc13] at h
    exact Option.noConfusion (congrArg EncResult.encrypted_cert h)
  rw [if_neg hc13] at h
  by_cases hc14 : env.mac_digest_data_st ≠ 0
  · rw [if_pos hc14] at h
    exact Option.noConfusion (congrArg EncResult.encrypted_cert h)
  rw [if_neg hc14] at h
  by_cases hc15 : env.mac_finalize_st ≠ 0
  · rw [if_pos hc15] at h
    exact Option.noConfusion (congrArg EncResult.encrypted_cert h)
  rw [if_neg hc15] at h
  exact (Option.some.inj (congrArg EncResult.encrypted_cert h)).symm

theorem certificate_encrypt_allOk (s : Suite) (cert password salt iv : List Nat)
    (rounds : Nat) :
    certificate_encrypt s (allOkEncEnv salt iv) cert password rounds =
      ⟨VCTOOL_STATUS_SUCCESS, some (encryptedCertBytes s cert password salt iv rounds)⟩ :=
  rfl

theorem crypt_cipher_mac_init_allOk (s : Suite) (password salt : List Nat) (rounds : Nat) :
    crypt_cipher_mac_init_from_password s allOkCMEnv password salt rounds =
      ⟨VCTOOL_STATUS_SUCCESS,
        some (s.kdf password salt rounds, s.kdf password salt rounds),
        [Res.keyDerivation, Res.derivedKey],
        [Ev.kdf, Ev.macInit, Ev.cipherInit]⟩ :=
  rfl

theorem cm_trace_subset (s : Suite) (env : CMEnv) (password salt : List Nat) (rounds : Nat) :
    (crypt_cipher_mac_init_from_password s env password salt rounds).trace ⊆
      [Ev.kdf, Ev.macInit, Ev.cipherInit] := by
  unfold crypt_cipher_mac_init_from_password
  by_cases h1 : env.derived_key_buf_st ≠ 0
  · rw [if_pos h1]; intro x hx; simp at hx
  rw [if_neg h1]
  by_cases h2 : env.kd_init_st ≠ 0
  · rw [if_pos h2]; intro x hx; simp at hx
  rw [if_neg h2]
  by_cases h3 : env.derive_st ≠ 0
  · rw [if_pos h3]; intro x hx; simp at hx; simp [hx]
  rw [if_neg h3]
  by_cases h4 : env.mac_init_st ≠ 0
  · rw [if_pos h4]; intro x hx; simp at hx ⊢; tauto
  rw [if_neg h4]
  by_cases h5 : env.stream_init_st ≠ 0
  · rw [if_pos h5]; intro x hx; simp at hx ⊢; tauto
  rw [if_neg h5]
  intro x hx; simp at hx ⊢; tauto

theorem decrypt_undersized (s : Suite) (env : DecEnv) (ec pw : List Nat)
    (h1 : env.mac_buf_st = 0) (h2 : env.salt_buf_st = 0)
    (hlen : ec.length < min_encrypted_cert_size s) :
    certificate_decrypt s env ec pw =
      ⟨VCTOOL_ERROR_CERTIFICATE_NOT_MINIMUM_SIZE, none, ec, []⟩ := by
  unfold certificate_decrypt
  rw [if_neg (by simp [h1]), if_neg (by simp [h2]), if_pos hlen]

theorem decrypt_bad_magic (s : Suite) (env : DecEnv) (ec pw : List Nat)
    (h1 : env.mac_buf_st = 0) (h2 : env.salt_buf_st = 0)
    (hlen : ¬ ec.length < min_encrypted_cert_size s)
    (hmagic : ec.take ENCRYPTED_CERT_MAGIC_SIZE ≠ ENCRYPTED_CERT_MAGIC_STRING) :
    certificate_decrypt s env ec pw =
      ⟨VCTOOL_ERROR_CERTIFICATE_VERIFICATION, none, ec, []⟩ := by
  unfold certificate_decrypt
  rw [if_neg (by simp [h1]), if_neg (by simp [h2]), if_neg hlen, if_pos hmagic]

theorem decrypt_bad_tag (s : Suite) (ec pw : List Nat)
    (hlen : ¬ ec.length < min_encrypted_cert_size s)
    (hmagic : ec.take ENCRYPTED_CERT_MAGIC_SIZE = ENCRYPTED_CERT_MAGIC_STRING)
    (htag : computedTag s ec pw ≠ storedTag s ec) :
    certificate_decrypt s allOkDecEnv ec pw =
      ⟨VCTOOL_ERROR_CERTIFICATE_VERIFICATION, none, ec,
        [Ev.kdf, Ev.macInit, Ev.cipherInit, Ev.macDigest, Ev.macFinalize]⟩ := by
  unfold certificate_decrypt
  rw [if_neg (by simp [allOkDecEnv]), if_neg (by simp [allOkDecEnv]), if_neg hlen,
    if_neg (by simp [hmagic]), if_neg (by simp [allOkDecEnv, crypt_cipher_mac_init_allOk, VCTOOL_STATUS_SUCCESS]),
    if_neg (by simp [allOkDecEnv]), if_neg (by simp [allOkDecEnv]),
    if_neg (by simp [allOkDecEnv]), if_neg (by simp [allOkDecEnv]), if_pos htag]
  simp [allOkDecEnv, crypt_cipher_mac_init_allOk]

theorem decrypt_good_tag (s : Suite) (ec pw : List Nat)
    (hlen : ¬ ec.length < min_encrypted_cert_size s)
    (hmagic : ec.take ENCRYPTED_CERT_MAGIC_SIZE = ENCRYPTED_CERT_MAGIC_STRING)
    (htag : computedTag s ec pw = storedTag s ec) :
    certificate_decrypt s allOkDecEnv ec pw =
      ⟨VCTOOL_STATUS_SUCCESS,
        some (s.dec (s.kdf pw ((ec.drop 7).take s.key_size) (ntohl_bytes ((ec.drop 3).take 4)))
          (s.startDec (s.kdf pw ((ec.drop 7).take s.key_size) (ntohl_bytes ((ec.drop 3).take 4)))
            ((ec.drop (7 + s.key_size)).take s.iv_size))
          (((ec.drop (7 + s.key_size)).drop s.iv_size).take
            (ec.length - min_encrypted_cert_size s))),
        ec,
        [Ev.kdf, Ev.macInit, Ev.cipherInit, Ev.macDigest, Ev.macFinalize,
         Ev.startDecryption, Ev.streamDecrypt]⟩ := by
  unfold certificate_decrypt
  rw [if_neg (by simp [allOkDecEnv]), if_neg (by simp [allOkDecEnv]), if_neg hlen,
    if_neg (by simp [hmagic]), if_neg (by simp [allOkDecEnv, crypt_cipher_mac_init_allOk, VCTOOL_STATUS_SUCCESS]),
    if_neg (by simp [allOkDecEnv]), if_neg (by simp [allOkDecEnv]),
    if_neg (by simp [allOkDecEnv]), if_neg (by simp [allOkDecEnv]),
    if_neg (by simp [htag]), if_neg (by simp [allOkDecEnv])]
  simp [allOkDecEnv, crypt_cipher_mac_init_allOk]

theorem decrypt_trace_subset_of_tag_mismatch (s : Suite) (env : DecEnv) (ec pw : List Nat)
    (hne : computedTag s ec pw ≠ storedTag s ec) :
    (certificate_decrypt s env ec pw).trace ⊆
      [Ev.kdf, Ev.macInit, Ev.cipherInit, Ev.macDigest, Ev.macFinalize] := by
  have hcm := cm_trace_subset s env.cmenv pw ((ec.drop 7).take s.key_size)
    (ntohl_bytes ((ec.drop 3).take 4))
  unfold certificate_decrypt
  by_cases h1 : env.mac_buf_st ≠ 0
  · rw [if_pos h1]; intro x hx; simp at hx
  rw [if_neg h1]
  by_cases h2 : env.salt_buf_st ≠ 0
  · rw [if_pos h2]; intro x hx; simp at hx
  rw [if_neg h2]
  by_cases h3 : ec.length < min_encrypted_cert_size s
  · rw [if_pos h3]; intro x hx; simp at hx
  rw [if_neg h3]
  by_cases h4 : ec.take ENCRYPTED_CERT_MAGIC_SIZE ≠ ENCRYPTED_CERT_MAGIC_STRING
  · rw [if_pos h4]; intro x hx; simp at hx
  rw [if_neg h4]
  by_cases h5 : (crypt_cipher_mac_init_from_password s env.cmenv pw
      ((ec.drop 7).take s.key_size) (ntohl_bytes ((ec.drop 3).take 4))).retval ≠ 0
  · rw [if_pos h5]
    intro x hx
    have := hcm hx
    simp at this ⊢
    tauto
  rw [if_neg h5]
  by_cases h6 : ¬ env.malloc_ok = true
  · rw [if_pos h6]
    intro x hx
    have := hcm hx
    simp at this ⊢
    tauto
  rw [if_neg h6]
  by_cases h7 : env.cert_buf_st ≠ 0
  · rw [if_pos h7]
    intro x hx
    have := hcm hx
    simp at this ⊢
    tauto
  rw [if_neg h7]
  by_cases h8 : env.mac_digest_st ≠ 0
  · rw [if_pos h8]
    intro x hx
    rcases List.mem_append.mp hx with hx' | hx'
    · have := hcm hx'
      simp at this ⊢
      tauto
    · simp at hx' ⊢
      tauto
  rw [if_neg h8]
  by_cases h9 : env.mac_finalize_st ≠ 0
  · rw [if_pos h9]
    intro x hx
    rcases List.mem_append.mp hx with hx' | hx'
    · have := hcm hx'
      simp at this ⊢
      tauto
    · simp at hx' ⊢
      tauto
  rw [if_neg h9]
  rw [if_pos hne]
  intro x hx
  rcases List.mem_append.mp hx with hx' | hx'
  · have := hcm hx'
    simp at this ⊢
    tauto
  · simp at hx' ⊢
    tauto

theorem encryptedCertBytes_length (s : Suite) (hWF : s.WellFormed)
    (cert password salt iv : List Nat) (rounds : Nat)
    (hs : salt.length = s.key_size) (hiv : iv.length = s.iv_size) :
    (encryptedCertBytes s cert password salt iv rounds).length =
      7 + s.key_size + s.iv_size + cert.length + s.mac_size := by
  have hF := hWF.startEnc_len (s.kdf password salt rounds) iv hiv
  have hC := hWF.enc_len (s.kdf password salt rounds) iv cert
  have hT := hWF.mac_len (s.kdf password salt rounds)
    (ENCRYPTED_CERT_MAGIC_STRING ++ htonl_bytes rounds ++ salt
      ++ s.startEnc (s.kdf password salt rounds) iv
      ++ s.enc (s.kdf password salt rounds) iv cert)
  simp only [encryptedCertBytes, List.length_append, ENCRYPTED_CERT_MAGIC_STRING,
    htonl_bytes, List.length_cons, List.length_nil] at *
  omega

theorem encryptedCertBytes_mac_boundary (s : Suite) (hWF : s.WellFormed)
    (cert password salt iv : List Nat) (rounds : Nat) :
    (encryptedCertBytes s cert password salt iv rounds).take
        ((encryptedCertBytes s cert password salt iv rounds).length - s.mac_size) =
      ENCRYPTED_CERT_MAGIC_STRING ++ htonl_bytes rounds ++ salt
        ++ s.startEnc (s.kdf password salt rounds) iv
        ++ s.enc (s.kdf password salt rounds) iv cert ∧
    (encryptedCertBytes s cert password salt iv rounds).drop
        ((encryptedCertBytes s cert password salt iv rounds).length - s.mac_size) =
      s.macTag (s.kdf password salt rounds)
        (ENCRYPTED_CERT_MAGIC_STRING ++ htonl_bytes rounds ++ salt
          ++ s.startEnc (s.kdf password salt rounds) iv
          ++ s.enc (s.kdf password salt rounds) iv cert) := by
  set K := s.kdf password salt rounds with hKdef
  set F := s.startEnc K iv with hFdef
  set C := s.enc K iv cert with hCdef
  set B := ENCRYPTED_CERT_MAGIC_STRING ++ htonl_bytes rounds ++ salt ++ F ++ C with hBdef
  set T := s.macTag K B with hTdef
  have hE : encryptedCertBytes s cert password salt iv rounds = B ++ T := rfl
  have hT : T.length = s.mac_size := hWF.mac_len K B
  have hlenE : (B ++ T).length = B.length + s.mac_size := by simp [hT]
  have hsub : (B ++ T).length - s.mac_size = B.length := by omega
  rw [hE, hsub]
  exact ⟨List.take_left' rfl, List.drop_left' rfl⟩

theorem encryptedCertBytes_tag_check (s : Suite) (hWF : s.WellFormed)
    (cert password salt iv : List Nat) (rounds : Nat)
    (hs : salt.length = s.key_size) (hr : rounds < 2 ^ 32) :
    computedTag s (encryptedCertBytes s cert password salt iv rounds) password =
      storedTag s (encryptedCertBytes s cert password salt iv rounds) := by
  set K := s.kdf password salt rounds with hKdef
  set F := s.startEnc K iv with hFdef
  set C := s.enc K iv cert with hCdef
  set B := ENCRYPTED_CERT_MAGIC_STRING ++ htonl_bytes rounds ++ salt ++ F ++ C with hBdef
  set T := s.macTag K B with hTdef
  have hE : encryptedCertBytes s cert password salt iv rounds = B ++ T := rfl
  have hT : T.length = s.mac_size := hWF.mac_len K B
  have hassoc : B ++ T
      = ENCRYPTED_CERT_MAGIC_STRING ++ (htonl_bytes rounds ++ (salt ++ (F ++ (C ++ T)))) := by
    simp [hBdef, List.append_assoc]
  have hdrop3 : (B ++ T).drop 3 = htonl_bytes rounds ++ (salt ++ (F ++ (C ++ T))) := by
    rw [hassoc]; exact List.drop_left' rfl
  have hrounds : ntohl_bytes (((B ++ T).drop 3).take 4) = rounds := by
    rw [hdrop3, List.take_left' (htonl_bytes_length rounds), ntohl_htonl rounds hr]
  have hassoc7 : B ++ T
      = (ENCRYPTED_CERT_MAGIC_STRING ++ htonl_bytes rounds) ++ (salt ++ (F ++ (C ++ T))) := by
    simp [hBdef, List.append_assoc]
  have hdrop7 : (B ++ T).drop 7 = salt ++ (F ++ (C ++ T)) := by
    rw [hassoc7]; exact List.drop_left' rfl
  have hsalt : ((B ++ T).drop 7).take s.key_size = salt := by
    rw [hdrop7]; exact List.take_left' hs
  have hlenE : (B ++ T).length = B.length + s.mac_size := by simp [hT]
  have hsub : (B ++ T).length - s.mac_size = B.length := by omega
  have hbody : (B ++ T).take ((B ++ T).length - s.mac_size) = B := by
    rw [hsub]; exact List.take_left' rfl
  have hstored : storedTag s (B ++ T) = T := by
    rw [storedTag, hsub]; exact List.drop_left' rfl
  rw [hE, hstored, computedTag]
  simp only [hrounds, hsalt, hbody]

/-- C1: for every well-formed suite, plaintext p, non-empty password w, and
rounds 0 < r < 2^32, any successful certificate_encrypt run (arbitrary
collaborator environment, PRNG salt/iv of the declared sizes) produces an
envelope that certificate_decrypt, with the same password and succeeding
collaborators, accepts and decrypts back to a plaintext byte-for-byte equal to
p. -/
theorem C1_encrypt_then_decrypt_roundtrip
    (s : Suite) (hWF : s.WellFormed) (p w : List Nat) (r : Nat)
    (hw : w ≠ []) (hr : 0 < r) (hr32 : r < 2 ^ 32)
    (env : EncEnv) (hsalt : env.prng_salt.length = s.key_size)
    (hiv : env.prng_iv.length = s.iv_size) (out : List Nat)
    (henc : certificate_encrypt s env p w r = ⟨VCTOOL_STATUS_SUCCESS, some out⟩) :
    (certificate_decrypt s allOkDecEnv out w).retval = VCTOOL_STATUS_SUCCESS ∧
    (certificate_decrypt s allOkDecEnv out w).cert = some p := by
  have hout := certificate_encrypt_success_inv s env p w r out henc
  subst hout
  rw [certificate_decrypt_canonical s hWF p w env.prng_salt env.prng_iv r hsalt hiv hr32]
  exact ⟨rfl, rfl⟩

theorem C1_witness :
    trivSuite.WellFormed ∧ ([3] : List Nat) ≠ [] ∧ 0 < 1 ∧ 1 < 2 ^ 32 ∧
    (allOkEncEnv [5] [7]).prng_salt.length = trivSuite.key_size ∧
    (allOkEncEnv [5] [7]).prng_iv.length = trivSuite.iv_size ∧
    certificate_encrypt trivSuite (allOkEncEnv [5] [7]) [1, 2] [3] 1 =
      ⟨VCTOOL_STATUS_SUCCESS, some [69, 78, 67, 0, 0, 0, 1, 5, 7, 1, 2, 0]⟩ ∧
    (certificate_decrypt trivSuite allOkDecEnv
        [69, 78, 67, 0, 0, 0, 1, 5, 7, 1, 2, 0] [3]).retval = VCTOOL_STATUS_SUCCESS ∧
    (certificate_decrypt trivSuite allOkDecEnv
        [69, 78, 67, 0, 0, 0, 1, 5, 7, 1, 2, 0] [3]).cert = some [1, 2] :=
  ⟨trivSuite_wf, by decide, by decide, by decide, rfl, rfl, rfl,
    C1_encrypt_then_decrypt_roundtrip trivSuite trivSuite_wf [1, 2] [3] 1 (by decide)
      (by decide) (by decide) (allOkEncEnv [5] [7]) rfl rfl
      [69, 78, 67, 0, 0, 0, 1, 5, 7, 1, 2, 0] rfl⟩

/-- C2: a successful certificate_encrypt returns exactly the concatenation of
the 3 magic bytes, the 4-byte big-endian rounds, the salt (key_size bytes),
the cipher framing (iv_size bytes), the ciphertext (plaintext-length bytes)
and the MAC tag (mac_size bytes), with total length
7 + key_size + iv_size + plaintext length + mac_size. -/
theorem C2_envelope_layout_and_length
    (s : Suite) (hWF : s.WellFormed) (p w salt iv : List Nat) (r : Nat)
    (hs : salt.length = s.key_size) (hiv : iv.length = s.iv_size)
    (hr32 : r < 2 ^ 32) :
    certificate_encrypt s (allOkEncEnv salt iv) p w r =
      ⟨VCTOOL_STATUS_SUCCESS, some (encryptedCertBytes s p w salt iv r)⟩ ∧
    encryptedCertBytes s p w salt iv r =
      ENCRYPTED_CERT_MAGIC_STRING ++ htonl_bytes r ++ salt
        ++ s.startEnc (s.kdf w salt r) iv ++ s.enc (s.kdf w salt r) iv p
        ++ s.macTag (s.kdf w salt r)
          (ENCRYPTED_CERT_MAGIC_STRING ++ htonl_bytes r ++ salt
            ++ s.startEnc (s.kdf w salt r) iv ++ s.enc (s.kdf w salt r) iv p) ∧
    (htonl_bytes r).length = 4 ∧ ntohl_bytes (htonl_bytes r) = r ∧
    (s.startEnc (s.kdf w salt r) iv).length = s.iv_size ∧
    (s.enc (s.kdf w salt r) iv p).length = p.length ∧
    (s.macTag (s.kdf w salt r)
      (ENCRYPTED_CERT_MAGIC_STRING ++ htonl_bytes r ++ salt
        ++ s.startEnc (s.kdf w salt r) iv ++ s.enc (s.kdf w salt r) iv p)).length
      = s.mac_size ∧
    (encryptedCertBytes s p w salt iv r).length =
      7 + s.key_size + s.iv_size + p.length + s.mac_size :=
  ⟨certificate_encrypt_allOk s p w salt iv r,
    encryptedCertBytes_decomp s p w salt iv r,
    htonl_bytes_length r,
    ntohl_htonl r hr32,
    hWF.startEnc_len _ _ hiv,
    hWF.enc_len _ _ _,
    hWF.mac_len _ _,
    encryptedCertBytes_length s hWF p w salt iv r hs hiv⟩

theorem C2_witness :
    trivSuite.WellFormed ∧ ([5] : List Nat).length = trivSuite.key_size ∧
    ([7] : List Nat).length = trivSuite.iv_size ∧ 1 < 2 ^ 32 ∧
    (certificate_encrypt trivSuite (allOkEncEnv [5] [7]) [1, 2] [3] 1 =
        ⟨VCTOOL_STATUS_SUCCESS, some (encryptedCertBytes trivSuite [1, 2] [3] [5] [7] 1)⟩ ∧
      encryptedCertBytes trivSuite [1, 2] [3] [5] [7] 1 =
        ENCRYPTED_CERT_MAGIC_STRING ++ htonl_bytes 1 ++ [5]
          ++ trivSuite.startEnc (trivSuite.kdf [3] [5] 1) [7]
          ++ trivSuite.enc (trivSuite.kdf [3] [5] 1) [7] [1, 2]
          ++ trivSuite.macTag (trivSuite.kdf [3] [5] 1)
            (ENCRYPTED_CERT_MAGIC_STRING ++ htonl_bytes 1 ++ [5]
              ++ trivSuite.startEnc (trivSuite.kdf [3] [5] 1) [7]
              ++ trivSuite.enc (trivSuite.kdf [3] [5] 1) [7] [1, 2]) ∧
      (htonl_bytes 1).length = 4 ∧ ntohl_bytes (htonl_bytes 1) = 1 ∧
      (trivSuite.startEnc (trivSuite.kdf [3] [5] 1) [7]).length = trivSuite.iv_size ∧
      (trivSuite.enc (trivSuite.kdf [3] [5] 1) [7] [1, 2]).length = ([1, 2] : List Nat).length ∧
      (trivSuite.macTag (trivSuite.kdf [3] [5] 1)
        (ENCRYPTED_CERT_MAGIC_STRING ++ htonl_bytes 1 ++ [5]
          ++ trivSuite.startEnc (trivSuite.kdf [3] [5] 1) [7]
          ++ trivSuite.enc (trivSuite.kdf [3] [5] 1) [7] [1, 2])).length
        = trivSuite.mac_size ∧
      (encryptedCertBytes trivSuite [1, 2] [3] [5] [7] 1).length =
        7 + trivSuite.key_size + trivSuite.iv_size + ([1, 2] : List Nat).length
          + trivSuite.mac_size) :=
  ⟨trivSuite_wf, rfl, rfl, by decide,
    C2_envelope_layout_and_length trivSuite trivSuite_wf [1, 2] [3] [5] [7] 1 rfl rfl
      (by decide)⟩

/-- C3: the byte sequence fed piecewise to the MAC during certificate_encrypt
(magic, big-endian rounds, salt, then the stream output consisting of the
framing plus the ciphertext, with no separate IV digest step) is exactly the
first length - mac_size bytes of the produced envelope, its MAC equals the
trailing tag, and the single-pass MAC that certificate_decrypt computes over
the envelope minus the trailing tag equals that trailing tag. -/
theorem C3_mac_input_is_envelope_prefix
    (s : Suite) (hWF : s.WellFormed) (p w salt iv : List Nat) (r : Nat)
    (hs : salt.length = s.key_size) (hr32 : r < 2 ^ 32) (out : List Nat)
    (henc : certificate_encrypt s (allOkEncEnv salt iv) p w r =
      ⟨VCTOOL_STATUS_SUCCESS, some out⟩) :
    out.take (out.length - s.mac_size)
      = ENCRYPTED_CERT_MAGIC_STRING ++ htonl_bytes r ++ salt
        ++ s.startEnc (s.kdf w salt r) iv ++ s.enc (s.kdf w salt r) iv p ∧
    s.macTag (s.kdf w salt r) (out.take (out.length - s.mac_size))
      = out.drop (out.length - s.mac_size) ∧
    computedTag s out w = storedTag s out := by
  have hout : out = encryptedCertBytes s p w salt iv r := by
    rw [certificate_encrypt_allOk s p w salt iv r] at henc
    exact (Option.some.inj (congrArg EncResult.encrypted_cert henc)).symm
  subst hout
  obtain ⟨h1, h2⟩ := encryptedCertBytes_mac_boundary s hWF p w salt iv r
  refine ⟨h1, ?_, encryptedCertBytes_tag_check s hWF p w salt iv r hs hr32⟩
  rw [h1, h2]

theorem C3_witness :
    trivSuite.WellFormed ∧ ([5] : List Nat).length = trivSuite.key_size ∧ 1 < 2 ^ 32 ∧
    certificate_encrypt trivSuite (allOkEncEnv [5] [7]) [1, 2] [3] 1 =
      ⟨VCTOOL_STATUS_SUCCESS, some [69, 78, 67, 0, 0, 0, 1, 5, 7, 1, 2, 0]⟩ ∧
    (([69, 78, 67, 0, 0, 0, 1, 5, 7, 1, 2, 0] : List Nat).take
        (([69, 78, 67, 0, 0, 0, 1, 5, 7, 1, 2, 0] : List Nat).length - trivSuite.mac_size)
      = ENCRYPTED_CERT_MAGIC_STRING ++ htonl_bytes 1 ++ [5]
        ++ trivSuite.startEnc (trivSuite.kdf [3] [5] 1) [7]
        ++ trivSuite.enc (trivSuite.kdf [3] [5] 1) [7] [1, 2] ∧
    trivSuite.macTag (trivSuite.kdf [3] [5] 1)
        (([69, 78, 67, 0, 0, 0, 1, 5, 7, 1, 2, 0] : List Nat).take
          (([69, 78, 67, 0, 0, 0, 1, 5, 7, 1, 2, 0] : List Nat).length - trivSuite.mac_size))
      = ([69, 78, 67, 0, 0, 0, 1, 5, 7, 1, 2, 0] : List Nat).drop
          (([69, 78, 67, 0, 0, 0, 1, 5, 7, 1, 2, 0] : List Nat).length - trivSuite.mac_size) ∧
    computedTag trivSuite [69, 78, 67, 0, 0, 0, 1, 5, 7, 1, 2, 0] [3]
      = storedTag trivSuite [69, 78, 67, 0, 0, 0, 1, 5, 7, 1, 2, 0]) :=
  ⟨trivSuite_wf, rfl, by decide, rfl,
    C3_mac_input_is_envelope_prefix trivSuite trivSuite_wf [1, 2] [3] [5] [7] 1 rfl
      (by decide) [69, 78, 67, 0, 0, 0, 1, 5, 7, 1, 2, 0] rfl⟩

/-- C4: in every execution of certificate_decrypt (any collaborator
environment), if the MAC computed over the envelope differs from the trailing
tag then neither the stream cipher start-decryption nor the decrypt operation
is ever invoked, and in any execution that reaches the tag comparison (all
preceding collaborator calls succeed) a mismatch makes the call return the
verification error. -/
theorem C4_no_decryption_on_mac_mismatch
    (s : Suite) (env : DecEnv) (ec pw : List Nat)
    (hne : computedTag s ec pw ≠ storedTag s ec) :
    Ev.startDecryption ∉ (certificate_decrypt s env ec pw).trace ∧
    Ev.streamDecrypt ∉ (certificate_decrypt s env ec pw).trace ∧
    (¬ ec.length < min_encrypted_cert_size s →
      ec.take ENCRYPTED_CERT_MAGIC_SIZE = ENCRYPTED_CERT_MAGIC_STRING →
      (certificate_decrypt s allOkDecEnv ec pw).retval =
        VCTOOL_ERROR_CERTIFICATE_VERIFICATION) := by
  have hsub := decrypt_trace_subset_of_tag_mismatch s env ec pw hne
  refine ⟨fun hmem => ?_, fun hmem => ?_, fun hlen hmagic => ?_⟩
  · have := hsub hmem; simp at this
  · have := hsub hmem; simp at this
  · rw [decrypt_bad_tag s ec pw hlen hmagic hne]

theorem C4_witness :
    computedTag trivSuite [69, 78, 67, 0, 0, 0, 1, 5, 7, 9, 1] [3]
        ≠ storedTag trivSuite [69, 78, 67, 0, 0, 0, 1, 5, 7, 9, 1] ∧
    ¬ ([69, 78, 67, 0, 0, 0, 1, 5, 7, 9, 1] : List Nat).length
        < min_encrypted_cert_size trivSuite ∧
    ([69, 78, 67, 0, 0, 0, 1, 5, 7, 9, 1] : List Nat).take ENCRYPTED_CERT_MAGIC_SIZE
        = ENCRYPTED_CERT_MAGIC_STRING ∧
    Ev.startDecryption ∉
      (certificate_decrypt trivSuite allOkDecEnv
        [69, 78, 67, 0, 0, 0, 1, 5, 7, 9, 1] [3]).trace ∧
    Ev.streamDecrypt ∉
      (certificate_decrypt trivSuite allOkDecEnv
        [69, 78, 67, 0, 0, 0, 1, 5, 7, 9, 1] [3]).trace ∧
    (certificate_decrypt trivSuite allOkDecEnv
        [69, 78, 67, 0, 0, 0, 1, 5, 7, 9, 1] [3]).retval =
      VCTOOL_ERROR_CERTIFICATE_VERIFICATION := by
  have h := C4_no_decryption_on_mac_mismatch trivSuite allOkDecEnv
    [69, 78, 67, 0, 0, 0, 1, 5, 7, 9, 1] [3] (by decide)
  exact ⟨by decide, by decide, by decide, h.1, h.2.1, h.2.2 (by decide) (by decide)⟩

/-- C5: every input buffer strictly shorter than
3 + 4 + key_size + iv_size + mac_size is rejected by certificate_decrypt with
the distinct NOT_MINIMUM_SIZE error (provided the two buffer allocations that
precede the check succeed), and on that path no cryptographic primitive is
invoked at all — in particular no KDF call occurs. -/
theorem C5_undersized_rejected_without_crypto
    (s : Suite) (env : DecEnv) (ec pw : List Nat)
    (h1 : env.mac_buf_st = 0) (h2 : env.salt_buf_st = 0)
    (hlen : ec.length < 3 + 4 + s.key_size + s.iv_size + s.mac_size) :
    (certificate_decrypt s env ec pw).retval =
      VCTOOL_ERROR_CERTIFICATE_NOT_MINIMUM_SIZE ∧
    VCTOOL_ERROR_CERTIFICATE_NOT_MINIMUM_SIZE ≠ VCTOOL_ERROR_CERTIFICATE_VERIFICATION ∧
    VCTOOL_ERROR_CERTIFICATE_NOT_MINIMUM_SIZE ≠ VCTOOL_STATUS_SUCCESS ∧
    (certificate_decrypt s env ec pw).trace = [] ∧
    Ev.kdf ∉ (certificate_decrypt s env ec pw).trace := by
  have hlt : ec.length < min_encrypted_cert_size s := by
    simp only [min_encrypted_cert_size, ENCRYPTED_CERT_MAGIC_SIZE]
    omega
  rw [decrypt_undersized s env ec pw h1 h2 hlt]
  refine ⟨rfl, by decide, by decide, rfl, by simp⟩

theorem C5_witness :
    (allOkDecEnv.mac_buf_st = 0) ∧ (allOkDecEnv.salt_buf_st = 0) ∧
    ([69, 78] : List Nat).length
      < 3 + 4 + trivSuite.key_size + trivSuite.iv_size + trivSuite.mac_size ∧
    ((certificate_decrypt trivSuite allOkDecEnv [69, 78] [3]).retval =
        VCTOOL_ERROR_CERTIFICATE_NOT_MINIMUM_SIZE ∧
      VCTOOL_ERROR_CERTIFICATE_NOT_MINIMUM_SIZE ≠ VCTOOL_ERROR_CERTIFICATE_VERIFICATION ∧
      VCTOOL_ERROR_CERTIFICATE_NOT_MINIMUM_SIZE ≠ VCTOOL_STATUS_SUCCESS ∧
      (certificate_decrypt trivSuite allOkDecEnv [69, 78] [3]).trace = [] ∧
      Ev.kdf ∉ (certificate_decrypt trivSuite allOkDecEnv [69, 78] [3]).trace) :=
  ⟨rfl, rfl, by decide,
    C5_undersized_rejected_without_crypto trivSuite allOkDecEnv [69, 78] [3] rfl rfl
      (by decide)⟩

/-- C6: certificate_decrypt returns the single VERIFICATION error code both
when the leading magic bytes mismatch and when the computed MAC mismatches the
trailing tag, so the two failures are indistinguishable by status code. -/
theorem C6_magic_and_mac_mismatch_same_error
    (s : Suite) (ec1 pw1 ec2 pw2 : List Nat)
    (h1len : ¬ ec1.length < min_encrypted_cert_size s)
    (h1magic : ec1.take ENCRYPTED_CERT_MAGIC_SIZE ≠ ENCRYPTED_CERT_MAGIC_STRING)
    (h2len : ¬ ec2.length < min_encrypted_cert_size s)
    (h2magic : ec2.take ENCRYPTED_CERT_MAGIC_SIZE = ENCRYPTED_CERT_MAGIC_STRING)
    (h2tag : computedTag s ec2 pw2 ≠ storedTag s ec2) :
    (certificate_decrypt s allOkDecEnv ec1 pw1).retval =
      VCTOOL_ERROR_CERTIFICATE_VERIFICATION ∧
    (certificate_decrypt s allOkDecEnv ec2 pw2).retval =
      VCTOOL_ERROR_CERTIFICATE_VERIFICATION ∧
    (certificate_decrypt s allOkDecEnv ec1 pw1).retval =
      (certificate_decrypt s allOkDecEnv ec2 pw2).retval := by
  rw [decrypt_bad_magic s allOkDecEnv ec1 pw1 rfl rfl h1len h1magic,
    decrypt_bad_tag s ec2 pw2 h2len h2magic h2tag]
  exact ⟨rfl, rfl, rfl⟩

theorem C6_witness :
    ¬ ([0, 0, 0, 0, 0, 0, 0, 0, 0, 0] : List Nat).length
        < min_encrypted_cert_size trivSuite ∧
    ([0, 0, 0, 0, 0, 0, 0, 0, 0, 0] : List Nat).take ENCRYPTED_CERT_MAGIC_SIZE
        ≠ ENCRYPTED_CERT_MAGIC_STRING ∧
    ¬ ([69, 78, 67, 0, 0, 0, 1, 5, 7, 9, 1] : List Nat).length
        < min_encrypted_cert_size trivSuite ∧
    ([69, 78, 67, 0, 0, 0, 1, 5, 7, 9, 1] : List Nat).take ENCRYPTED_CERT_MAGIC_SIZE
        = ENCRYPTED_CERT_MAGIC_STRING ∧
    computedTag trivSuite [69, 78, 67, 0, 0, 0, 1, 5, 7, 9, 1] [3]
        ≠ storedTag trivSuite [69, 78, 67, 0, 0, 0, 1, 5, 7, 9, 1] ∧
    ((certificate_decrypt trivSuite allOkDecEnv [0, 0, 0, 0, 0, 0, 0, 0, 0, 0] [3]).retval =
        VCTOOL_ERROR_CERTIFICATE_VERIFICATION ∧
      (certificate_decrypt trivSuite allOkDecEnv
          [69, 78, 67, 0, 0, 0, 1, 5, 7, 9, 1] [3]).retval =
        VCTOOL_ERROR_CERTIFICATE_VERIFICATION ∧
      (certificate_decrypt trivSuite allOkDecEnv [0, 0, 0, 0, 0, 0, 0, 0, 0, 0] [3]).retval =
        (certificate_decrypt trivSuite allOkDecEnv
          [69, 78, 67, 0, 0, 0, 1, 5, 7, 9, 1] [3]).retval) :=
  ⟨by decide, by decide, by decide, by decide, by decide,
    C6_magic_and_mac_mismatch_same_error trivSuite
      [0, 0, 0, 0, 0, 0, 0, 0, 0, 0] [3] [69, 78, 67, 0, 0, 0, 1, 5, 7, 9, 1] [3]
      (by decide) (by decide) (by decide) (by decide) (by decide)⟩

theorem decrypt_envFinal (s : Suite) (env : DecEnv) (ec pw : List Nat) :
    (certificate_decrypt s env ec pw).envFinal = ec := by
  unfold certificate_decrypt
  by_cases hc0 : env.mac_buf_st ≠ 0
  · rw [if_pos hc0]
  rw [if_neg hc0]
  by_cases hc1 : env.salt_buf_st ≠ 0
  · rw [if_pos hc1]
  rw [if_neg hc1]
  by_cases hc2 : ec.length < min_encrypted_cert_size s
  · rw [if_pos hc2]
  rw [if_neg hc2]
  by_cases hc3 : ec.take ENCRYPTED_CERT_MAGIC_SIZE ≠ ENCRYPTED_CERT_MAGIC_STRING
  · rw [if_pos hc3]
  rw [if_neg hc3]
  by_cases hc4 : (crypt_cipher_mac_init_from_password s env.cmenv pw ((ec.drop 7).take s.key_size) (ntohl_bytes ((ec.drop 3).take 4))).retval ≠ 0
  · rw [if_pos hc4]
  rw [if_neg hc4]
  by_cases hc5 : ¬ env.malloc_ok = true
  · rw [if_pos hc5]
  rw [if_neg hc5]
  by_cases hc6 : env.cert_buf_st ≠ 0
  · rw [if_pos hc6]
  rw [if_neg hc6]
  by_cases hc7 : env.mac_digest_st ≠ 0
  · rw [if_pos hc7]
  rw [if_neg hc7]
  by_cases hc8 : env.mac_finalize_st ≠ 0
  · rw [if_pos hc8]
  rw [if_neg hc8]
  by_cases hc9 : computedTag s ec pw ≠ storedTag s ec
  · rw [if_pos hc9]
  rw [if_neg hc9]
  by_cases hc10 : env.start_dec_st ≠ 0
  · rw [if_pos hc10]
  rw [if_neg hc10]
  by_cases hc11 : env.dec_st ≠ 0
  · rw [if_pos hc11]
  rw [if_neg hc11]

theorem dec_nil (s : Suite) (hWF : s.WellFormed) (k iv : List Nat) :
    s.dec k iv [] = [] :=
  List.length_eq_zero.mp (by simpa using hWF.dec_len k iv [])

/-- C7: the claim that every allocation failure makes certificate_encrypt /
certificate_decrypt return a non-zero error is contradicted by the code: when
the malloc of the output vccrypt_buffer_t wrapper fails, both functions jump
to cleanup without assigning retval, which still holds the success status of
the preceding cipher/mac init, so they return VCTOOL_STATUS_SUCCESS while
handing no valid output buffer to the caller.  This theorem evaluates both
functions at such a failing execution. -/
theorem C7_malloc_failure_returns_success_status :
    (certificate_encrypt trivSuite (mallocFailEncEnv [5] [7]) [1, 2] [3] 1).retval
      = VCTOOL_STATUS_SUCCESS ∧
    (certificate_encrypt trivSuite (mallocFailEncEnv [5] [7]) [1, 2] [3] 1).encrypted_cert
      = none ∧
    (certificate_decrypt trivSuite mallocFailDecEnv
        [69, 78, 67, 0, 0, 0, 1, 5, 7, 1, 2, 0] [3]).retval = VCTOOL_STATUS_SUCCESS ∧
    (certificate_decrypt trivSuite mallocFailDecEnv
        [69, 78, 67, 0, 0, 0, 1, 5, 7, 1, 2, 0] [3]).cert = none := by
  decide

/-- C8: whenever key derivation, MAC construction, or cipher construction
fails inside crypt_cipher_mac_init_from_password, the function returns that
collaborator's non-zero status and hands no context pair to the caller; in the
case where cipher construction fails after the MAC context was built, the MAC
context is among the resources disposed before returning. -/
theorem C8_cm_init_failure_cleanup
    (s : Suite) (env : CMEnv) (pw salt : List Nat) (r : Nat) :
    (env.derived_key_buf_st = 0 → env.kd_init_st = 0 → env.derive_st ≠ 0 →
      (crypt_cipher_mac_init_from_password s env pw salt r).retval = env.derive_st ∧
      (crypt_cipher_mac_init_from_password s env pw salt r).retval ≠ 0 ∧
      (crypt_cipher_mac_init_from_password s env pw salt r).ctxs = none) ∧
    (env.derived_key_buf_st = 0 → env.kd_init_st = 0 → env.derive_st = 0 →
      env.mac_init_st ≠ 0 →
      (crypt_cipher_mac_init_from_password s env pw salt r).retval = env.mac_init_st ∧
      (crypt_cipher_mac_init_from_password s env pw salt r).retval ≠ 0 ∧
      (crypt_cipher_mac_init_from_password s env pw salt r).ctxs = none) ∧
    (env.derived_key_buf_st = 0 → env.kd_init_st = 0 → env.derive_st = 0 →
      env.mac_init_st = 0 → env.stream_init_st ≠ 0 →
      (crypt_cipher_mac_init_from_password s env pw salt r).retval = env.stream_init_st ∧
      (crypt_cipher_mac_init_from_password s env pw salt r).retval ≠ 0 ∧
      (crypt_cipher_mac_init_from_password s env pw salt r).ctxs = none ∧
      Res.macCtx ∈ (crypt_cipher_mac_init_from_password s env pw salt r).disposed) := by
  refine ⟨fun a b c => ?_, fun a b c d => ?_, fun a b c d e => ?_⟩
  · simp [crypt_cipher_mac_init_from_password, a, b, c]
  · simp [crypt_cipher_mac_init_from_password, a, b, c, d]
  · simp [crypt_cipher_mac_init_from_password, a, b, c, d, e]

theorem C8_witness :
    ((⟨0, 0, 0, 0, 5⟩ : CMEnv).derived_key_buf_st = 0) ∧
    ((⟨0, 0, 0, 0, 5⟩ : CMEnv).kd_init_st = 0) ∧
    ((⟨0, 0, 0, 0, 5⟩ : CMEnv).derive_st = 0) ∧
    ((⟨0, 0, 0, 0, 5⟩ : CMEnv).mac_init_st = 0) ∧
    ((⟨0, 0, 0, 0, 5⟩ : CMEnv).stream_init_st ≠ 0) ∧
    ((crypt_cipher_mac_init_from_password trivSuite ⟨0, 0, 0, 0, 5⟩ [3] [5] 1).retval
        = (⟨0, 0, 0, 0, 5⟩ : CMEnv).stream_init_st ∧
      (crypt_cipher_mac_init_from_password trivSuite ⟨0, 0, 0, 0, 5⟩ [3] [5] 1).retval ≠ 0 ∧
      (crypt_cipher_mac_init_from_password trivSuite ⟨0, 0, 0, 0, 5⟩ [3] [5] 1).ctxs = none ∧
      Res.macCtx ∈
        (crypt_cipher_mac_init_from_password trivSuite ⟨0, 0, 0, 0, 5⟩ [3] [5] 1).disposed) :=
  ⟨rfl, rfl, rfl, rfl, by decide,
    (C8_cm_init_failure_cleanup trivSuite ⟨0, 0, 0, 0, 5⟩ [3] [5] 1).2.2
      rfl rfl rfl rfl (by decide)⟩

/-- C9 (counterexample): a successful certificate_decrypt run on a valid
envelope returns the plaintext in the freshly allocated output buffer and
leaves the caller's envelope buffer byte-for-byte unchanged, refuting the
claim that the plaintext is written into the envelope buffer itself. -/
theorem C9_counterexample_envelope_unmodified :
    (certificate_decrypt trivSuite allOkDecEnv
        [69, 78, 67, 0, 0, 0, 1, 5, 7, 9, 0] [3]).retval = VCTOOL_STATUS_SUCCESS ∧
    (certificate_decrypt trivSuite allOkDecEnv
        [69, 78, 67, 0, 0, 0, 1, 5, 7, 9, 0] [3]).cert = some [9] ∧
    (certificate_decrypt trivSuite allOkDecEnv
        [69, 78, 67, 0, 0, 0, 1, 5, 7, 9, 0] [3]).envFinal
      = [69, 78, 67, 0, 0, 0, 1, 5, 7, 9, 0] := by
  decide

/-- C9 (amended): certificate_decrypt does not decrypt in place — on every
execution the input envelope buffer is left unmodified, and any plaintext
handed to the caller lives in a freshly allocated buffer of size
envelope length minus the fixed overhead. -/
theorem C9_decrypt_not_in_place
    (s : Suite) (hWF : s.WellFormed) (env : DecEnv) (ec pw : List Nat) :
    (certificate_decrypt s env ec pw).envFinal = ec ∧
    (∀ pt, (certificate_decrypt s allOkDecEnv ec pw).cert = some pt →
      pt.length = ec.length - min_encrypted_cert_size s) := by
  refine ⟨decrypt_envFinal s env ec pw, fun pt hpt => ?_⟩
  by_cases hnl : ec.length < min_encrypted_cert_size s
  · rw [decrypt_undersized s allOkDecEnv ec pw rfl rfl hnl] at hpt
    simp at hpt
  by_cases hm : ec.take ENCRYPTED_CERT_MAGIC_SIZE = ENCRYPTED_CERT_MAGIC_STRING
  · by_cases ht : computedTag s ec pw = storedTag s ec
    · rw [decrypt_good_tag s ec pw hnl hm ht] at hpt
      simp only [DecResult.cert, Option.some.injEq] at hpt
      subst hpt
      rw [hWF.dec_len, List.length_take, List.length_drop, List.length_drop]
      simp only [min_encrypted_cert_size, ENCRYPTED_CERT_MAGIC_SIZE] at *
      omega
    · rw [decrypt_bad_tag s ec pw hnl hm ht] at hpt
      simp at hpt
  · rw [decrypt_bad_magic s allOkDecEnv ec pw rfl rfl hnl hm] at hpt
    simp at hpt

theorem C9_witness :
    trivSuite.WellFormed ∧
    ((certificate_decrypt trivSuite allOkDecEnv
        [69, 78, 67, 0, 0, 0, 1, 5, 7, 9, 0] [3]).envFinal
      = [69, 78, 67, 0, 0, 0, 1, 5, 7, 9, 0] ∧
    (∀ pt, (certificate_decrypt trivSuite allOkDecEnv
        [69, 78, 67, 0, 0, 0, 1, 5, 7, 9, 0] [3]).cert = some pt →
      pt.length = ([69, 78, 67, 0, 0, 0, 1, 5, 7, 9, 0] : List Nat).length
        - min_encrypted_cert_size trivSuite)) :=
  ⟨trivSuite_wf,
    C9_decrypt_not_in_place trivSuite trivSuite_wf allOkDecEnv
      [69, 78, 67, 0, 0, 0, 1, 5, 7, 9, 0] [3]⟩

/-- C10: an envelope of exactly the minimum size (zero-length ciphertext) is
never rejected as undersized — the size check is a strict less-than — and when
the magic and MAC comparisons succeed, certificate_decrypt returns success
with a zero-length plaintext buffer. -/
theorem C10_minimal_envelope_accepted
    (s : Suite) (hWF : s.WellFormed) (ec pw : List Nat)
    (hlen : ec.length = min_encrypted_cert_size s) :
    (certificate_decrypt s allOkDecEnv ec pw).retval ≠
      VCTOOL_ERROR_CERTIFICATE_NOT_MINIMUM_SIZE ∧
    (ec.take ENCRYPTED_CERT_MAGIC_SIZE = ENCRYPTED_CERT_MAGIC_STRING →
      computedTag s ec pw = storedTag s ec →
      (certificate_decrypt s allOkDecEnv ec pw).retval = VCTOOL_STATUS_SUCCESS ∧
      (certificate_decrypt s allOkDecEnv ec pw).cert = some []) := by
  have hnl : ¬ ec.length < min_encrypted_cert_size s := by omega
  constructor
  · by_cases hm : ec.take ENCRYPTED_CERT_MAGIC_SIZE = ENCRYPTED_CERT_MAGIC_STRING
    · by_cases ht : computedTag s ec pw = storedTag s ec
      · rw [decrypt_good_tag s ec pw hnl hm ht]
        show VCTOOL_STATUS_SUCCESS ≠ VCTOOL_ERROR_CERTIFICATE_NOT_MINIMUM_SIZE
        decide
      · rw [decrypt_bad_tag s ec pw hnl hm ht]
        show VCTOOL_ERROR_CERTIFICATE_VERIFICATION ≠ VCTOOL_ERROR_CERTIFICATE_NOT_MINIMUM_SIZE
        decide
    · rw [decrypt_bad_magic s allOkDecEnv ec pw rfl rfl hnl hm]
      show VCTOOL_ERROR_CERTIFICATE_VERIFICATION ≠ VCTOOL_ERROR_CERTIFICATE_NOT_MINIMUM_SIZE
      decide
  · intro hm ht
    rw [decrypt_good_tag s ec pw hnl hm ht]
    have h0 : ec.length - min_encrypted_cert_size s = 0 := by omega
    refine ⟨rfl, ?_⟩
    simp [h0, dec_nil s hWF]

theorem C10_witness :
    trivSuite.WellFormed ∧
    ([69, 78, 67, 0, 0, 0, 1, 5, 7, 0] : List Nat).length
      = min_encrypted_cert_size trivSuite ∧
    ((certificate_decrypt trivSuite allOkDecEnv
        [69, 78, 67, 0, 0, 0, 1, 5, 7, 0] [3]).retval ≠
      VCTOOL_ERROR_CERTIFICATE_NOT_MINIMUM_SIZE ∧
    (([69, 78, 67, 0, 0, 0, 1, 5, 7, 0] : List Nat).take ENCRYPTED_CERT_MAGIC_SIZE
        = ENCRYPTED_CERT_MAGIC_STRING →
      computedTag trivSuite [69, 78, 67, 0, 0, 0, 1, 5, 7, 0] [3]
        = storedTag trivSuite [69, 78, 67, 0, 0, 0, 1, 5, 7, 0] →
      (certificate_decrypt trivSuite allOkDecEnv
          [69, 78, 67, 0, 0, 0, 1, 5, 7, 0] [3]).retval = VCTOOL_STATUS_SUCCESS ∧
      (certificate_decrypt trivSuite allOkDecEnv
          [69, 78, 67, 0, 0, 0, 1, 5, 7, 0] [3]).cert = some [])) :=
  ⟨trivSuite_wf, by decide,
    C10_minimal_envelope_accepted trivSuite trivSuite_wf
      [69, 78, 67, 0, 0, 0, 1, 5, 7, 0] [3] (by decide)⟩
